import Mathlib

/-!
Verification development for the inbox-copilot repository.

The Python modules under `src/inbox_copilot` are shallowly embedded as
executable Lean definitions: pure functions become Lean functions, the
per-run orchestration loop becomes explicit folds over lists, fallible
Python code (dataclass constructor errors, exceptions) becomes
`Except`-valued functions.  External collaborators (the Gmail transport,
the LLM extractor, the outcome of per-message side effects) are modelled
as explicit parameters/oracles, exactly at the interface boundary the
code uses them.
-/

namespace InboxCopilot

/-! ### Python string primitives used by the code -/

/-- Lowercasing as `str.lower()` does for the alphabets occurring in this
repository: ASCII plus the German umlauts used by the rule phrase lists.
(`Char.toLower` alone is ASCII-only.) -/
def pyLowerChar (c : Char) : Char :=
  if c = 'Ä' then 'ä' else if c = 'Ö' then 'ö' else if c = 'Ü' then 'ü'
  else c.toLower

def pyToLower (s : String) : String :=
  String.mk (s.toList.map pyLowerChar)

def pyToUpper (s : String) : String :=
  String.mk (s.toList.map Char.toUpper)

/-- Python `str.strip()` (whitespace on both ends). -/
def pyStrip (s : String) : String :=
  String.mk (((s.toList.dropWhile Char.isWhitespace).reverse.dropWhile
    Char.isWhitespace).reverse)

/-- Python substring containment `needle in text`. -/
def containsSubstr (t n : String) : Bool :=
  t.toList.tails.any (fun suf => n.toList.isPrefixOf suf)

/-- Models `email.utils.parseaddr(value)[1]` (a Python stdlib dependency of
`app/run.py`, not repository code) on well-formed inputs: for
`"Display <addr>"` it returns `addr`; for a bare address it returns the
string unchanged. -/
def parseaddrAddr (s : String) : String :=
  let cs := s.toList
  match cs.dropWhile (· ≠ '<') with
  | [] => s
  | _ :: rest => String.mk (rest.takeWhile (· ≠ '>'))

/-- Embeds `app/run.py` `_normalized_address`: `parseaddr(value)[1].strip().lower()`. -/
def normalizedAddress (s : String) : String :=
  pyToLower (pyStrip (parseaddrAddr s))

/-! ### Data model (`models.py`, `storage/state.py`) -/

/-- Embeds `models.py` `NormalizedEmail` (immutable canonical message record). -/
structure NormalizedEmail where
  message_id : String
  subject : String
  from_email : String
  snippet : String
  body_text : String
  internal_date_ms : Int
  headers : List (String × String) := []
  label_ids : List String := []
deriving DecidableEq

/-- Embeds `storage/state.py` `AppState` (the persisted cursor). -/
structure AppState where
  last_history_time : Option String := none
  last_internal_date_ms : Option Int := none
  last_message_ids_at_latest_ts : List String := []
  runs : Int := 0
deriving DecidableEq

/-! ### Eligibility filter (`app/run.py` lines 258–273) -/

/-- Embeds `"DRAFT" in \x7blbl.upper() for lbl in mail.label_ids\x7d`. -/
def hasDraftLabel (mail : NormalizedEmail) : Bool :=
  mail.label_ids.any (fun l => pyToUpper l == "DRAFT")

/-- The per-message eligibility test of `run_once` (`app/run.py` 259–273):
a loaded mail survives unless the cursor says it is old or already
processed at the cursor timestamp, it carries a DRAFT label, or its
normalized sender equals the account's own (nonempty) address. -/
def isEligible (st : AppState) (own_email : String) (mail : NormalizedEmail) : Bool :=
  (match st.last_internal_date_ms with
   | none => true
   | some t =>
     !(mail.internal_date_ms < t) &&
     !(mail.internal_date_ms == t &&
       st.last_message_ids_at_latest_ts.contains mail.message_id)) &&
  !(hasDraftLabel mail) &&
  !(own_email != "" && normalizedAddress mail.from_email == own_email)

/-! ### Run orchestrator (`app/run.py` `run_once`)

The Gmail transport and the per-message side-effect pipeline are external
collaborators; they enter the model as an explicit list of fetch outcomes
(one per listed candidate id, in listing order) and a success oracle for
`process_message` (whose exceptions `run_once` catches per message). -/

/-- Outcome of `client.get_message` + normalization for one candidate id:
the provider returned the message, answered with an HTTP error of the
given status, or some other exception occurred while fetching/normalizing. -/
inductive FetchOutcome where
  | ok (m : NormalizedEmail)
  | http (status : Nat)
  | exn
deriving DecidableEq

/-- Errors as seen by the `try/except` in `run_once`'s loading loop. -/
inductive FetchErr where
  | keyError
  | otherError
deriving DecidableEq

/-- Embeds `gmail/client.py` `get_message` (lines 86–102): an `HttpError` with
status 404 is translated into `KeyError` (the distinguishable
"message not found" condition); any other failure propagates as a
non-`KeyError` exception. -/
def getMessageResult : FetchOutcome → Except FetchErr NormalizedEmail
  | .ok m => .ok m
  | .http s => if s = 404 then .error .keyError else .error .otherError
  | .exn => .error .otherError

/-- The fetch raised the `KeyError` "message not found" condition. -/
def isNotFound (f : FetchOutcome) : Bool :=
  match getMessageResult f with
  | .error .keyError => true
  | _ => false

/-- The fetch raised some exception other than the not-found condition. -/
def isFetchError (f : FetchOutcome) : Bool :=
  match getMessageResult f with
  | .error .otherError => true
  | _ => false

structure LoadAcc where
  loaded : List NormalizedEmail
  skipped_deleted : Nat
  errors : Nat
deriving DecidableEq

/-- The loading loop of `run_once` (`app/run.py` 230–252): `KeyError`
(deleted message) increments `skipped_deleted`, any other exception
increments `errors`, and the loop continues either way. -/
def loadPhase : List FetchOutcome → LoadAcc
  | [] => ⟨[], 0, 0⟩
  | f :: fs =>
    let rest := loadPhase fs
    match getMessageResult f with
    | .ok m => ⟨m :: rest.loaded, rest.skipped_deleted, rest.errors⟩
    | .error .keyError => ⟨rest.loaded, rest.skipped_deleted + 1, rest.errors⟩
    | .error .otherError => ⟨rest.loaded, rest.skipped_deleted, rest.errors + 1⟩

/-- The sort key relation of `loaded_mails.sort(key=lambda m:
(m.internal_date_ms, m.message_id))` (`app/run.py` 255). -/
def mailLE (a b : NormalizedEmail) : Prop :=
  a.internal_date_ms < b.internal_date_ms ∨
    (a.internal_date_ms = b.internal_date_ms ∧ a.message_id ≤ b.message_id)

instance : DecidableRel mailLE := fun a b => by
  unfold mailLE; infer_instance

instance : IsTotal NormalizedEmail mailLE where
  total a b := by
    rcases lt_trichotomy a.internal_date_ms b.internal_date_ms with h | h | h
    · exact Or.inl (Or.inl h)
    · rcases le_total a.message_id b.message_id with h' | h'
      · exact Or.inl (Or.inr ⟨h, h'⟩)
      · exact Or.inr (Or.inr ⟨h.symm, h'⟩)
    · exact Or.inr (Or.inl h)

instance : IsTrans NormalizedEmail mailLE where
  trans a b c hab hbc := by
    rcases hab with h1 | ⟨h1, h1'⟩ <;> rcases hbc with h2 | ⟨h2, h2'⟩
    · exact Or.inl (h1.trans h2)
    · exact Or.inl (h2 ▸ h1)
    · exact Or.inl (h1 ▸ h2)
    · exact Or.inr ⟨h1.trans h2, h1'.trans h2'⟩

/-- Python's stable `list.sort` on the `(timestamp, id)` key. -/
def sortMails (l : List NormalizedEmail) : List NormalizedEmail :=
  l.insertionSort mailLE

/-- Python string `<`: lexicographic comparison by code points. -/
def strLtChars : List Char → List Char → Bool
  | [], [] => false
  | [], _ :: _ => true
  | _ :: _, [] => false
  | a :: as, b :: bs =>
    if a.val < b.val then true
    else if b.val < a.val then false
    else strLtChars as bs

/-- Python string `<=` (total order by code points). -/
def pyStrLe (a b : String) : Bool := !(strLtChars b.toList a.toList)

/-- Embeds `sorted(...)` on a list of strings (ascending by code points). -/
def sortStrings (l : List String) : List String :=
  l.insertionSort (fun a b => pyStrLe a b = true)

/-- Embeds `latest_ids_at_ts.add(...)` on the Python set, represented as a
duplicate-free list in insertion order. -/
def insertId (ids : List String) (i : String) : List String :=
  if i ∈ ids then ids else ids ++ [i]

structure ProcAcc where
  processed : Nat
  errors : Nat
  latest_ts : Option Int
  latest_ids : List String
deriving DecidableEq

/-- One iteration of the processing loop (`app/run.py` 292–337): on
success increment `processed` and advance the working
`(latest_ts, latest_ids_at_ts)` pair exactly as lines 306–312 do; on any
exception from `process_message` increment `errors` and continue. -/
def procStep (procOk : NormalizedEmail → Bool) (acc : ProcAcc)
    (mail : NormalizedEmail) : ProcAcc :=
  if procOk mail then
    let acc1 : ProcAcc := { acc with processed := acc.processed + 1 }
    match acc1.latest_ts with
    | none =>
      { acc1 with latest_ts := some mail.internal_date_ms
                  latest_ids := [mail.message_id] }
    | some t =>
      if t < mail.internal_date_ms then
        { acc1 with latest_ts := some mail.internal_date_ms
                    latest_ids := [mail.message_id] }
      else if mail.internal_date_ms = t then
        { acc1 with latest_ids := insertId acc1.latest_ids mail.message_id }
      else acc1
  else { acc with errors := acc.errors + 1 }

/-- The processing loop over the eligible batch, starting from the error
count accumulated while loading. -/
def procPhase (procOk : NormalizedEmail → Bool) (e0 : Nat)
    (l : List NormalizedEmail) : ProcAcc :=
  l.foldl (procStep procOk) ⟨0, e0, none, []⟩

structure RunResult where
  processed : Nat
  skipped_deleted : Nat
  errors : Nat
  seen : Nat
  latest_ts : Option Int
  latest_ids : List String
  eligible : List NormalizedEmail
  finalState : AppState
  saves : List AppState
deriving DecidableEq

/-- Embeds `app/run.py` `run_once`, from the point where the candidate ids are
listed: load every candidate (counting 404s as skips), sort the batch by
`(timestamp, id)` ascending, filter for eligibility, drive each eligible
mail through processing in that order, then update the state in memory
(lines 339–344) and call `save_state` exactly once (line 346) — `saves`
records the `save_state` calls made during the run. -/
def runOnce (st : AppState) (own_email : String)
    (fetches : List FetchOutcome) (procOk : NormalizedEmail → Bool) : RunResult :=
  let la := loadPhase fetches
  let elig := (sortMails la.loaded).filter (isEligible st own_email)
  let pa := procPhase procOk la.errors elig
  let st' : AppState :=
    { st with
      last_internal_date_ms :=
        match pa.latest_ts with
        | some t => some t
        | none => st.last_internal_date_ms
      last_message_ids_at_latest_ts :=
        match pa.latest_ts with
        | some _ => sortStrings pa.latest_ids
        | none => st.last_message_ids_at_latest_ts
      runs := st.runs + 1 }
  { processed := pa.processed
    skipped_deleted := la.skipped_deleted
    errors := pa.errors
    seen := elig.length
    latest_ts := pa.latest_ts
    latest_ids := pa.latest_ids
    eligible := elig
    finalState := st'
    saves := [st'] }

/-! ### Rule engine (`rules/core.py`, `rules/BaseRule.py`, `rules/rules.py`,
`rules/classification.py`) -/

/-- Embeds `rules/core.py` `MailItem` — note: it has exactly these four fields;
there is no `internal_date_ms` field. -/
structure MailItem where
  id : String
  thread_id : Option String
  headers : List (String × String)
  snippet : String
deriving DecidableEq

/-- Python `dict.get` on the headers mapping (keys are unique). -/
def getHeader (hs : List (String × String)) (name : String) : Option String :=
  (hs.find? (fun p => p.1 == name)).map (fun p => p.2)

/-- Embeds `BaseRule.norm`: None-safe lowercasing. -/
def norm (s : Option String) : String := pyToLower (s.getD "")

def subjectOf (mail : MailItem) : String := norm (getHeader mail.headers "Subject")

def senderOf (mail : MailItem) : String := norm (getHeader mail.headers "From")

def snippetOf (mail : MailItem) : String := norm (some mail.snippet)

/-- Embeds `BaseRule.contains_any`: any needle a substring of the lowercased text. -/
def containsAny (t : String) (needles : List String) : Bool :=
  needles.any (fun n => containsSubstr (pyToLower t) (pyToLower n))

/-- Word characters in the sense of the regex `\w` / `\b`, for the
alphabets that occur in the rule patterns (ASCII plus German letters). -/
def isWordChar (c : Char) : Bool :=
  c.isAlphanum || c == '_' || c == 'ä' || c == 'ö' || c == 'ü' || c == 'ß'

/-- Helper: `w` occurs in `t` starting at index `i` with a word boundary before it. -/
def boundaryStartAt (t : List Char) (i : Nat) (w : List Char) : Bool :=
  w.isPrefixOf (t.drop i) &&
    (i == 0 || !(isWordChar (t.getD (i - 1) ' ')))

/-- The position `j` in `t` is a word boundary looking right (end of
string, or a non-word character follows). -/
def boundaryEndOkAt (t : List Char) (j : Nat) : Bool :=
  match t.drop j with
  | [] => true
  | c :: _ => !(isWordChar c)

/-- Embeds `re.search(r"\b<phrase>\b", t)` for a literal phrase (alternatives are
expanded at call sites): the phrase occurs with word boundaries at both
edges. -/
def containsWordL (t w : List Char) : Bool :=
  (List.range (t.length + 1)).any fun i =>
    boundaryStartAt t i w && boundaryEndOkAt t (i + w.length)

def containsWord (t w : String) : Bool := containsWordL t.toList w.toList

/-- Embeds `re.search(r"\b<stem>\w*", t)` (trailing `\w*\b` is always satisfiable
for an all-word-character stem): the stem occurs at a word start. -/
def containsWordStart (t w : String) : Bool :=
  (List.range (t.toList.length + 1)).any fun i =>
    boundaryStartAt t.toList i w.toList

/-- First index at or after `k` that is not a word character (the end of
the word that `\w*` consumes). -/
def wordEndFrom (t : List Char) (k : Nat) : Nat :=
  k + ((t.drop k).takeWhile isWordChar).length

/-- Embeds `re.search(r"\b<w1>\w*\b.*\b<w2>\w*\b", t)`: a word starting with `w1`
at a word boundary, then — on the same line, since `.` does not match a
newline — a later word starting with `w2` at a word boundary. -/
def seqSameLine (t w1 w2 : String) : Bool :=
  let cs := t.toList
  (List.range (cs.length + 1)).any fun i =>
    boundaryStartAt cs i w1.toList &&
      (let e := wordEndFrom cs (i + w1.toList.length)
       (List.range (cs.length + 1)).any fun j =>
         decide (e ≤ j) && boundaryStartAt cs j w2.toList &&
           !(((cs.drop e).take (j - e)).any (fun c => c == '\n')))

/-- Embeds `rules/rules.py` `GoogleSecurityAlertRule.match` (priority 100). -/
def securityMatch (mail : MailItem) : Bool :=
  containsAny (senderOf mail) ["accounts.google.com", "no-reply@accounts.google.com"] &&
  containsAny (subjectOf mail) ["security", "sicherheits", "alert", "warn"]

/-- Embeds `rules/rules.py` `NewsletterRule.match` (priority 10). -/
def newsletterMatch (mail : MailItem) : Bool :=
  containsAny (senderOf mail) ["newsletter", "noreply", "no-reply", "mailchimp"] ||
  containsAny (subjectOf mail) ["newsletter", "weekly", "digest"] ||
  containsWord (snippetOf mail) "unsubscribe" ||
  containsWord (snippetOf mail) "abbestellen"

def CONFIRM_PHRASES : List String :=
  ["vielen dank für ihre bewerbung", "vielen dank fuer ihre bewerbung",
   "danke für ihre bewerbung", "danke fuer ihre bewerbung",
   "danke für deine bewerbung", "danke fuer deine bewerbung",
   "wir haben ihre bewerbung erhalten", "wir haben deine bewerbung erhalten",
   "eingangsbestätigung", "eingangsbestaetigung",
   "bestätigung ihrer bewerbung", "bestätigung deiner bewerbung",
   "thank you for your application", "thank you for applying",
   "we received your application", "application received",
   "your application has been received", "thank you for your interest",
   "we appreciate your interest"]

def REJECTION_PHRASES : List String :=
  ["nicht weiter berücksichtigen", "nicht weiter beruecksichtigen",
   "leider mitteilen", "wir müssen dir leider mitteilen",
   "wir muessen dir leider mitteilen", "wir müssen ihnen leider mitteilen",
   "wir muessen ihnen leider mitteilen", "konnten wir sie leider nicht",
   "konnten wir dich leider nicht", "leider nicht in den engsten kreis",
   "nicht in den engsten kreis", "bei der besetzung der stelle", "absage",
   "wir bedauern", "bedauern", "keinen günstigeren bescheid",
   "keinen guenstigeren bescheid",
   "wir wünschen ihnen alles gute für die zukunft",
   "wir wuenschen ihnen alles gute fuer die zukunft",
   "wir wünschen dir alles gute für die zukunft",
   "wir wuenschen dir alles gute fuer die zukunft",
   "werden wir gemäß unseren datenschutzbestimmungen löschen",
   "werden wir gemaess unseren datenschutzbestimmungen loeschen"]

def INTERVIEW_PHRASES : List String :=
  ["vorstellungsgespräch", "vorstellungs-gespräch", "interview",
   "teams-interview", "teams interview",
   "wir möchten dich gerne kennen lernen", "wir möchten dich gerne kennenlernen",
   "wir moechten dich gerne kennen lernen", "wir moechten dich gerne kennenlernen",
   "laden dich ein", "wir laden dich ein", "einladung zum gespräch",
   "einladung zum gespraech", "einladung zum interview", "termin",
   "termin bestätigt", "termin bestaetigt",
   "den genannten termin hast du bereits telefonisch bestätigt",
   "den genannten termin hast du bereits telefonisch bestaetigt",
   "besprechungs-id", "passcode", "microsoft teams",
   "jetzt an der besprechung teilnehmen", "1. vg", "vg -"]

def RECRUITING_WORDS : List String :=
  ["bewerbung", "bewerbungsunterlagen", "application", "candidate",
   "recruit", "recruiting", "recruiter", "talent acquisition", "hr",
   "career", "position", "stelle", "m/w/d"]

def APPLICATION_DOC_WORDS : List String := ["unterlagen", "einreichung"]

def ATS_MARKERS : List String :=
  ["greenhouse", "lever", "workday", "smartrecruiters", "personio",
   "ashby", "icims", "recruitee", "teamtailor", "breezy", "jobvite",
   "successfactors"]

/-- The haystack `f"\x7bsubj\x7d\n\x7bfrom_\x7d\n\x7bsnip\x7d".lower()` of
`JobAlertRule.match`. -/
def jobHay (mail : MailItem) : String :=
  subjectOf mail ++ "\n" ++ senderOf mail ++ "\n" ++ snippetOf mail

/-- Embeds `rules/rules.py` `JobAlertRule.match` (priority 50), branch by branch. -/
def jobMatch (mail : MailItem) : Bool :=
  let hay := jobHay mail
  -- 1) strong confirmation phrases
  containsAny hay CONFIRM_PHRASES ||
  -- 2) rejection phrases, guarded by recruiting/application-document context
  (containsAny hay REJECTION_PHRASES &&
    (containsAny hay RECRUITING_WORDS || containsAny hay APPLICATION_DOC_WORDS)) ||
  -- 3) interview phrases, guarded by recruiting context or a job-title regex
  (containsAny hay INTERVIEW_PHRASES &&
    (containsAny hay RECRUITING_WORDS ||
      containsWord hay "m/w/d" || containsWord hay "junior" ||
      containsWord hay "senior" || containsWord hay "data engineer" ||
      containsWord hay "software" || containsWord hay "entwickler")) ||
  -- 4) ATS marker plus recruiting words
  (containsAny hay ATS_MARKERS && containsAny hay RECRUITING_WORDS) ||
  -- 5) order-insensitive stem-pair regex fallbacks
  seqSameLine hay "dank" "bewerb" || seqSameLine hay "bewerb" "dank" ||
  seqSameLine hay "bedank" "bewerb" || seqSameLine hay "bewerb" "bedank" ||
  seqSameLine hay "receiv" "applicat" || seqSameLine hay "applicat" "receiv" ||
  -- 6) direct interview + invite/termin fallback
  ((containsWord hay "interview" || containsWord hay "vorstellungsgespräch") &&
    (containsWordStart hay "einlad" || containsWordStart hay "invite" ||
      containsWord hay "termin"))

/-- Embeds `rules/classification.py` `RuleResult`. -/
structure RuleResult where
  category : String
  labels : List String
  confidence : Rat
  notes : List String
  reason : Option String := none
deriving DecidableEq

/-- Python exceptions that the classification path can raise. -/
inductive PyErr where
  | typeError
  | attributeError
deriving DecidableEq

/-- Embeds `rules/classification.py` `_make_mail_item` (lines 95–105): it calls
`MailItem(id="analysis-only", thread_id=None, headers=..., snippet=body_text,
internal_date_ms=0)`, but `rules/core.py`'s `MailItem` dataclass declares no
`internal_date_ms` field, so the generated constructor rejects the keyword
argument and the call raises `TypeError` for every input. -/
def makeMailItem (subject from_email body_text : String) : Except PyErr MailItem :=
  let _ : MailItem :=
    { id := "analysis-only", thread_id := none
      headers := [("Subject", subject), ("From", from_email)]
      snippet := body_text }
  .error .typeError

/-- The statement `matched, reason = rule.match(mail)` in the rule loop
(`rules/classification.py` line 35): every rule in `rules/rules.py` returns
a bare `bool` from `match`, so unpacking it into a pair raises `TypeError`
(`BaseRule.match` declares `tuple[bool, str]`, which the concrete rules do
not honour). -/
def unpackBoolPair (b : Bool) : Except PyErr (Bool × String) :=
  let _ := b
  .error .typeError

/-- The value returned by `classify_email` when no rule matched
(`rules/classification.py` lines 39–45): category `no_fit` with an
empty label list. -/
def noMatchResult : RuleResult :=
  { category := "no_fit", labels := [], confidence := 1/5
    notes := ["No rule matched"], reason := none }

/-- Embeds `rules/classification.py` `_result_from_rule`: the `job_application`
branch calls `_job_label_suffix`, whose mapping dictionary reads
`JobAlertRule.CONFIRM_REASON` (and three sibling attributes) that
`rules/rules.py` never defines, raising `AttributeError`. -/
def resultFromRule (rule_name reason : String) : Except PyErr RuleResult :=
  if rule_name = "google_security_alert" then
    .ok { category := "security", labels := ["Security"], confidence := 9/10
          notes := ["Matched rule: " ++ rule_name], reason := some reason }
  else if rule_name = "newsletter" then
    .ok { category := "newsletter", labels := ["Newsletter"], confidence := 7/10
          notes := ["Matched rule: " ++ rule_name], reason := some reason }
  else if rule_name = "job_application" then
    .error .attributeError
  else
    .ok { category := "no_fit", labels := [], confidence := 1/5
          notes := ["Unknown rule: " ++ rule_name], reason := some reason }

/-- The `for rule in rules` loop of `classify_email` over the rules sorted
by descending priority — security (100), job (50), newsletter (10) — as
executed: the first iteration's tuple unpacking raises. -/
def classifyEmailLoop (mail : MailItem) : Except PyErr RuleResult := do
  let (m1, r1) ← unpackBoolPair (securityMatch mail)
  if m1 then resultFromRule "google_security_alert" r1 else do
  let (m2, r2) ← unpackBoolPair (jobMatch mail)
  if m2 then resultFromRule "job_application" r2 else do
  let (m3, r3) ← unpackBoolPair (newsletterMatch mail)
  if m3 then resultFromRule "newsletter" r3 else
  .ok noMatchResult

/-- Embeds `rules/classification.py` `classify_email`, faithfully: build the
`MailItem` (which raises), then run the rule loop. -/
def classifyEmail (subject from_email body_text : String) : Except PyErr RuleResult :=
  (makeMailItem subject from_email body_text).bind classifyEmailLoop

/-- The rule loop of `classify_email` with each rule's boolean `match`
result used directly, i.e. the loop as written at
`rules/classification.py` lines 34–45 without the crashing tuple
unpacking (the reason string, which the bool cannot carry, is `""`).
Used to reason about which branch the loop selects for a given mail. -/
def classifyEmailRules (mail : MailItem) : Except PyErr RuleResult :=
  if securityMatch mail then resultFromRule "google_security_alert" ""
  else if jobMatch mail then resultFromRule "job_application" ""
  else if newsletterMatch mail then resultFromRule "newsletter" ""
  else .ok noMatchResult

/-! ### Actions, policy planner, analysis record
(`rules/core.py`, `models.py`, `pipeline/orchestrator.py`, `pipeline/policy.py`) -/

/-- Embeds `rules/core.py` `ActionType`. -/
inductive ActionType where
  | print
  | add_label
  | archive
  | remove_label
  | analyze_application
deriving DecidableEq

/-- Embeds `rules/core.py` `Action`. -/
structure Action where
  type : ActionType
  message_id : String
  label_name : Option String := none
  reason : String := ""
deriving DecidableEq

/-- Embeds `models.py` `EmailAnalysis`. -/
structure EmailAnalysis where
  category : String
  suggested_labels : List String
  summary_bullets : List String
  todos : List String
  confidence : Rat
  notes : List String
  reason : Option String := none
deriving DecidableEq

/-- Embeds `pipeline/orchestrator.py` `analyze_email`, with the classification
already computed and the two extractor outputs (`summarize`,
`extract_todos` — text heuristics that do not influence labels or
category) passed in as parameters. -/
def analysisOf (r : RuleResult) (summary_bullets todos : List String) : EmailAnalysis :=
  { category := r.category, suggested_labels := r.labels
    summary_bullets := summary_bullets, todos := todos
    confidence := r.confidence
    notes := if todos ≠ [] then r.notes ++ ["Detected potential action items"] else r.notes
    reason := r.reason }

/-- Python `a or b` on an optional string (None and `""` are falsy). -/
def pyOrStr (a : Option String) (b : String) : String :=
  match a with
  | some s => if s = "" then b else s
  | none => b

/-- Embeds `pipeline/policy.py` `_prefer_most_specific_labels` lines 10–11: the
sorted set of stripped, non-empty labels. -/
def cleanLabels (labels : List String) : List String :=
  sortStrings ((labels.map pyStrip).filter (fun l => l ≠ "")).dedup

/-- Python `s.startswith(p)`. -/
def pyStartsWith (s p : String) : Bool := p.toList.isPrefixOf s.toList

/-- Embeds `pipeline/policy.py` `_prefer_most_specific_labels` (lines 9–24): keep
only the labels with no more-specific child present. -/
def preferMostSpecificLabels (labels : List String) : List String :=
  let unique := cleanLabels labels
  unique.filter (fun label =>
    !(unique.any (fun other => other != label && pyStartsWith other (label ++ "/"))))

/-- Embeds `pipeline/policy.py` `actions_from_analysis` (lines 27–50): one
`add_label` action per surviving label, plus one `analyze_application`
action when the category is `job_application`. -/
def actionsFromAnalysis (analysis : EmailAnalysis) (message_id : String) : List Action :=
  ((preferMostSpecificLabels analysis.suggested_labels).map (fun label =>
      { type := .add_label, message_id := message_id, label_name := some label
        reason := pyOrStr analysis.reason analysis.category })) ++
  (if analysis.category = "job_application" then
      [{ type := .analyze_application, message_id := message_id, label_name := none
         reason := pyOrStr analysis.reason "Job application detected" }]
    else [])

/-! ### Action executor (`actions/executor.py`, `actions/handlers.py`)

The executor's observable behaviour is modelled as the list of events it
produces: warnings for unhandled action types, mailbox mutations, print
output, and per-action caught errors (log lines accompanying successful
mutations are not modelled). -/

inductive ExecEvent where
  | warn (t : ActionType)
  | printed (message_id : String)
  | addLabel (message_id label : String)
  | actionError (t : ActionType)
deriving DecidableEq

inductive HandlerKind where
  | printH
  | addLabelH
  | archiveH
deriving DecidableEq

/-- The handler registry built by `default_executor` (`actions/executor.py`
lines 47–55): only `print`, `add_label` and `archive` are registered. -/
def defaultHandlerFor : ActionType → Option HandlerKind
  | .print => some .printH
  | .add_label => some .addLabelH
  | .archive => some .archiveH
  | .remove_label => none
  | .analyze_application => none

/-- The registered handlers (`actions/handlers.py`): `PrintHandler` logs;
`AddLabelHandler` raises `ValueError` on a missing/empty label name and
otherwise mutates the mailbox; `ArchiveHandler` calls `client.archive`,
a method `GmailClient` does not define, so it raises `AttributeError`. -/
def runHandler : HandlerKind → Action → Except Unit (List ExecEvent)
  | .printH, a => .ok [.printed a.message_id]
  | .addLabelH, a =>
    match a.label_name with
    | none => .error ()
    | some l => if l = "" then .error () else .ok [.addLabel a.message_id l]
  | .archiveH, _ => .error ()

/-- Embeds `ActionExecutor.run` (`actions/executor.py` lines 22–44) with the
`default_executor` registry (`dry_run=False`, `continue_on_error=True`
as `run_once` constructs it): an action without a registered handler
produces a warning and the loop continues; a handler exception is caught,
logged, and the loop continues. -/
def executorRun (actions : List Action) : List ExecEvent :=
  actions.flatMap (fun a =>
    match defaultHandlerFor a.type with
    | none => [.warn a.type]
    | some h =>
      match runHandler h a with
      | .ok evs => evs
      | .error _ => [.actionError a.type])

/-! ### Persisted state file (`storage/state.py`) -/

/-- The JSON values that occur in the state file. -/
inductive JVal where
  | jnull
  | jstr (s : String)
  | jnum (n : Int)
  | jarr (xs : List String)
deriving DecidableEq

/-- Python truthiness of `dict.get`'s result. -/
def jTruthy : Option JVal → Bool
  | none => false
  | some .jnull => false
  | some (.jstr s) => s ≠ ""
  | some (.jnum n) => n ≠ 0
  | some (.jarr xs) => xs ≠ []

/-- Python `a or b` at the JSON-value level. -/
def jOr (a b : Option JVal) : Option JVal := if jTruthy a then a else b

/-- JSON-object key lookup (`data.get(key)`). -/
def jGet (data : List (String × JVal)) (key : String) : Option JVal :=
  (data.find? (fun p => p.1 == key)).map (fun p => p.2)

/-- Embeds `storage/state.py` `load_state` (lines 16–27): a missing file yields
the default state; otherwise `last_history_time` falls back to the
legacy-cased `last_history_TIME` key, and the cursor pair and run counter
are read from their own keys. -/
def loadState (file : Option (List (String × JVal))) : AppState :=
  match file with
  | none => {}
  | some data =>
    { last_history_time :=
        match jOr (jGet data "last_history_time") (jGet data "last_history_TIME") with
        | some (.jstr s) => some s
        | _ => none
      last_internal_date_ms :=
        match jGet data "last_internal_date_ms" with
        | some (.jnum n) => some n
        | _ => none
      last_message_ids_at_latest_ts :=
        match jOr (jGet data "last_message_ids_at_latest_ts") (some (.jarr [])) with
        | some (.jarr xs) => xs
        | _ => []
      runs :=
        match jOr (jGet data "runs") (some (.jnum 0)) with
        | some (.jnum n) => n
        | _ => 0 }

/-- Embeds `storage/state.py` `save_state` (lines 29–31): `json.dumps(asdict(state))`
— the four dataclass fields, in declaration order, under their canonical
lowercase key names. -/
def saveState (st : AppState) : List (String × JVal) :=
  [("last_history_time",
     match st.last_history_time with | some s => .jstr s | none => .jnull),
   ("last_internal_date_ms",
     match st.last_internal_date_ms with | some n => .jnum n | none => .jnull),
   ("last_message_ids_at_latest_ts", .jarr st.last_message_ids_at_latest_ts),
   ("runs", .jnum st.runs)]

/-! ### Concrete fixtures used by witnesses and counterexamples -/

/-- A mail that matches no rule: neutral subject, sender and snippet. -/
def plainMail : MailItem :=
  { id := "analysis-only", thread_id := none
    headers := [("Subject", "x"), ("From", "b@c.de")], snippet := "y" }

/-- A mail matching both the security rule and the newsletter rule. -/
def secNewsMail : MailItem :=
  { id := "m1", thread_id := none
    headers := [("Subject", "Critical security alert"),
                ("From", "Google <no-reply@accounts.google.com>")]
    snippet := "newsletter unsubscribe" }

/-- A normalized mail with the given id and timestamp, from a fixed
third-party sender, carrying no labels. -/
def mkMail (id : String) (ts : Int) : NormalizedEmail :=
  { message_id := id, subject := "s", from_email := "a@b.com"
    snippet := "sn", body_text := "b", internal_date_ms := ts }

/-- The fetch listing of the chronological-processing example: candidates
arrive with timestamps 50, 10, 30, in that listing order. -/
def exFetches : List FetchOutcome :=
  [.ok (mkMail "a" 50), .ok (mkMail "b" 10), .ok (mkMail "c" 30)]

/-- A cursor state at timestamp 5 with one recorded id, run counter 3. -/
def exState : AppState :=
  { last_internal_date_ms := some 5, last_message_ids_at_latest_ts := ["a"], runs := 3 }

/-! ## Theorems -/

/-- Claim C5: the spec demands that `classify_email` be a total function
that returns a `RuleResult` without raising for any well-formed input,
but the code raises `TypeError` on every input — already on the empty
strings — because `_make_mail_item` passes the keyword argument
`internal_date_ms` to a `MailItem` dataclass that does not declare that
field (and the rule loop would additionally fail to unpack the boolean
`match` results). -/
theorem rule_engine_totality_code_bug :
    classifyEmail "" "" "" = Except.error PyErr.typeError ∧
    makeMailItem "" "" "" = Except.error PyErr.typeError := by
  exact ⟨rfl, rfl⟩

/-- Claim C4: the rule loop is written to evaluate rules in descending
priority order with first-match-wins, but as executed `classify_email`
never returns any classification: on a message matching both the security
rule (priority 100) and the newsletter rule (priority 10) it raises
`TypeError` (broken `MailItem` construction, and tuple unpacking of the
boolean `match` results) instead of returning the security-only result
that the loop, read past the broken glue, would select. -/
theorem rule_short_circuit_code_bug :
    securityMatch secNewsMail = true ∧
    newsletterMatch secNewsMail = true ∧
    classifyEmail "Critical security alert" "Google <no-reply@accounts.google.com>"
        "newsletter unsubscribe" = Except.error PyErr.typeError ∧
    classifyEmailLoop secNewsMail = Except.error PyErr.typeError ∧
    classifyEmailRules secNewsMail =
      Except.ok { category := "security", labels := ["Security"], confidence := 9/10
                  notes := ["Matched rule: google_security_alert"], reason := some "" } := by
  refine ⟨by decide, by decide, rfl, rfl, ?_⟩
  have hs : securityMatch secNewsMail = true := by decide
  simp [classifyEmailRules, hs, resultFromRule]

/-- Claim C6: the planner keeps exactly the labels of the cleaned
suggested-label set that have no strictly more specific child present
(`other` ≠ label with `label ++ "/"` a prefix of `other`), and on the
example set from the spec it returns exactly the two child labels. -/
theorem label_hierarchy_collapse :
    (∀ (labels : List String) (l : String),
      l ∈ preferMostSpecificLabels labels ↔
        (l ∈ cleanLabels labels ∧
          ¬∃ other ∈ cleanLabels labels, other ≠ l ∧ pyStartsWith other (l ++ "/") = true)) ∧
    preferMostSpecificLabels
        ["Applications", "Applications/Interview", "Interview", "Interview/Application"] =
      ["Applications/Interview", "Interview/Application"] := by
  refine ⟨fun labels l => ?_, by decide⟩
  simp only [preferMostSpecificLabels, List.mem_filter, Bool.not_eq_true', ← Bool.not_eq_true,
    List.any_eq_true, Bool.and_eq_true, bne_iff_ne]

/-- Claim C8 counterexample: `plainMail` is matched by no rule, yet the
no-match result of `classify_email` carries an empty label list — not a
catch-all label — so the planner emits no action at all for it. -/
theorem fallback_label_counterexample :
    securityMatch plainMail = false ∧
    jobMatch plainMail = false ∧
    newsletterMatch plainMail = false ∧
    classifyEmailRules plainMail = Except.ok noMatchResult ∧
    noMatchResult.labels = [] ∧
    actionsFromAnalysis (analysisOf noMatchResult [] []) "analysis-only" = [] := by
  refine ⟨by decide, by decide, by decide, ?_, rfl, rfl⟩
  have h1 : securityMatch plainMail = false := by decide
  have h2 : jobMatch plainMail = false := by decide
  have h3 : newsletterMatch plainMail = false := by decide
  simp [classifyEmailRules, h1, h2, h3]

/-- Claim C8 amended: when no rule matches, the rule loop falls through to
the `no_fit` result whose label list is empty, and the planner therefore
emits no `add_label` action (the catch-all `NoFitRule` exists in
`rules/rules.py` but is never registered in `classify_email`'s rule
list); as executed, `classify_email` raises even earlier (see C5). -/
theorem fallback_label_amended (mail : MailItem) (mid : String)
    (sb td : List String)
    (h1 : securityMatch mail = false) (h2 : jobMatch mail = false)
    (h3 : newsletterMatch mail = false) :
    classifyEmailRules mail = Except.ok noMatchResult ∧
    noMatchResult.labels = [] ∧
    actionsFromAnalysis (analysisOf noMatchResult sb td) mid = [] := by
  refine ⟨by simp [classifyEmailRules, h1, h2, h3], rfl, rfl⟩

/-- Witness for C8's amended theorem at the concrete no-match mail. -/
theorem fallback_label_amended_witness :
    classifyEmailRules plainMail = Except.ok noMatchResult ∧
    noMatchResult.labels = [] ∧
    actionsFromAnalysis (analysisOf noMatchResult ["s"] ["t"]) "m9" = [] :=
  fallback_label_amended plainMail "m9" ["s"] ["t"] (by decide) (by decide) (by decide)

/-- Claim C9 counterexample: loading a legacy-shaped state file does not
map the scalar checkpoint into the timestamp+id-set cursor — two legacy
files with different checkpoint values load to identical (empty) cursor
pairs — and saving the loaded state still writes the scalar
`last_history_time` key alongside the cursor fields. -/
theorem legacy_cursor_counterexample :
    (loadState (some [("last_history_TIME", JVal.jstr "checkpoint-a")])).last_internal_date_ms
      = none ∧
    (loadState (some [("last_history_TIME", JVal.jstr "checkpoint-a")])).last_message_ids_at_latest_ts
      = [] ∧
    (loadState (some [("last_history_TIME", JVal.jstr "checkpoint-b")])).last_internal_date_ms
      = none ∧
    (loadState (some [("last_history_TIME", JVal.jstr "checkpoint-b")])).last_message_ids_at_latest_ts
      = [] ∧
    "checkpoint-a" ≠ "checkpoint-b" ∧
    (saveState (loadState (some [("last_history_TIME", JVal.jstr "checkpoint-a")]))).map Prod.fst
      = ["last_history_time", "last_internal_date_ms", "last_message_ids_at_latest_ts", "runs"] := by
  exact ⟨rfl, rfl, rfl, rfl, by decide, rfl⟩

/-- Claim C9 amended: `load_state` tolerates the legacy-cased
`last_history_TIME` key as a fallback for the scalar `last_history_time`
field, preserving its value verbatim there while leaving the
timestamp+id-set cursor untouched; `save_state` always writes the four
canonical lowercase keys and never the legacy-cased key. -/
theorem legacy_cursor_amended :
    (∀ s : String,
      (loadState (some [("last_history_TIME", JVal.jstr s)])).last_history_time = some s ∧
      (loadState (some [("last_history_TIME", JVal.jstr s)])).last_internal_date_ms = none ∧
      (loadState (some [("last_history_TIME", JVal.jstr s)])).last_message_ids_at_latest_ts = []) ∧
    (∀ st : AppState, (saveState st).map Prod.fst =
      ["last_history_time", "last_internal_date_ms", "last_message_ids_at_latest_ts", "runs"]) ∧
    (∀ st : AppState, jGet (saveState st) "last_history_TIME" = none) := by
  exact ⟨fun s => ⟨rfl, rfl, rfl⟩, fun st => rfl, fun st => rfl⟩

/-- Claim C10: an action whose type has no registered handler makes
`ActionExecutor.run` emit a warning and continue, with no mailbox
mutation and no exception; the default executor registers handlers only
for `print`, `add_label` and `archive`, so the `analyze_application`
action the policy appends for every job-application classification (and
any `remove_label` action) is skipped. -/
theorem unhandled_action_types_skipped :
    (∀ a : Action, defaultHandlerFor a.type = none →
      executorRun [a] = [ExecEvent.warn a.type]) ∧
    (∀ (pre post : List Action) (a : Action), defaultHandlerFor a.type = none →
      executorRun (pre ++ a :: post) =
        executorRun pre ++ ExecEvent.warn a.type :: executorRun post) ∧
    defaultHandlerFor ActionType.analyze_application = none ∧
    defaultHandlerFor ActionType.remove_label = none ∧
    defaultHandlerFor ActionType.print = some HandlerKind.printH ∧
    defaultHandlerFor ActionType.add_label = some HandlerKind.addLabelH ∧
    defaultHandlerFor ActionType.archive = some HandlerKind.archiveH ∧
    (∀ (analysis : EmailAnalysis) (mid : String), analysis.category = "job_application" →
      Action.mk ActionType.analyze_application mid none
          (pyOrStr analysis.reason "Job application detected")
        ∈ actionsFromAnalysis analysis mid) := by
  refine ⟨?_, ?_, rfl, rfl, rfl, rfl, rfl, ?_⟩
  · intro a h
    simp [executorRun, h]
  · intro pre post a h
    simp [executorRun, h]
  · intro analysis mid h
    simp [actionsFromAnalysis, h]

/-- Witness for C10: a concrete `analyze_application` action produces
exactly one warning (alone and between other actions), and the policy
emits such an action for a concrete job-application analysis. -/
theorem unhandled_action_types_skipped_witness :
    executorRun [Action.mk ActionType.analyze_application "m" none "r"]
      = [ExecEvent.warn ActionType.analyze_application] ∧
    executorRun [Action.mk ActionType.print "p" none "",
                 Action.mk ActionType.analyze_application "m" none "r",
                 Action.mk ActionType.print "q" none ""]
      = executorRun [Action.mk ActionType.print "p" none ""] ++
          ExecEvent.warn ActionType.analyze_application ::
            executorRun [Action.mk ActionType.print "q" none ""] ∧
    Action.mk ActionType.analyze_application "m"
        none (pyOrStr (some "why") "Job application detected")
      ∈ actionsFromAnalysis
          { category := "job_application", suggested_labels := [], summary_bullets := []
            todos := [], confidence := 1, notes := [], reason := some "why" } "m" :=
  ⟨unhandled_action_types_skipped.1 (Action.mk ActionType.analyze_application "m" none "r") rfl,
   unhandled_action_types_skipped.2.1 [Action.mk ActionType.print "p" none ""]
     [Action.mk ActionType.print "q" none ""]
     (Action.mk ActionType.analyze_application "m" none "r") rfl,
   unhandled_action_types_skipped.2.2.2.2.2.2.2
     { category := "job_application", suggested_labels := [], summary_bullets := []
       todos := [], confidence := 1, notes := [], reason := some "why" } "m" rfl⟩

/-! ### Helper lemmas about the run model -/

lemma runOnce_eligible (st : AppState) (own : String) (f : List FetchOutcome)
    (p : NormalizedEmail → Bool) :
    (runOnce st own f p).eligible
      = (sortMails (loadPhase f).loaded).filter (isEligible st own) := rfl

lemma runOnce_processed (st : AppState) (own : String) (f : List FetchOutcome)
    (p : NormalizedEmail → Bool) :
    (runOnce st own f p).processed
      = (procPhase p (loadPhase f).errors ((runOnce st own f p).eligible)).processed := rfl

lemma runOnce_errors (st : AppState) (own : String) (f : List FetchOutcome)
    (p : NormalizedEmail → Bool) :
    (runOnce st own f p).errors
      = (procPhase p (loadPhase f).errors ((runOnce st own f p).eligible)).errors := rfl

lemma runOnce_latest_ts (st : AppState) (own : String) (f : List FetchOutcome)
    (p : NormalizedEmail → Bool) :
    (runOnce st own f p).latest_ts
      = (procPhase p (loadPhase f).errors ((runOnce st own f p).eligible)).latest_ts := rfl

lemma runOnce_latest_ids (st : AppState) (own : String) (f : List FetchOutcome)
    (p : NormalizedEmail → Bool) :
    (runOnce st own f p).latest_ids
      = (procPhase p (loadPhase f).errors ((runOnce st own f p).eligible)).latest_ids := rfl

lemma runOnce_skipped (st : AppState) (own : String) (f : List FetchOutcome)
    (p : NormalizedEmail → Bool) :
    (runOnce st own f p).skipped_deleted = (loadPhase f).skipped_deleted := rfl

lemma runOnce_finalState (st : AppState) (own : String) (f : List FetchOutcome)
    (p : NormalizedEmail → Bool) :
    (runOnce st own f p).finalState =
      { st with
        last_internal_date_ms :=
          match (runOnce st own f p).latest_ts with
          | some t => some t
          | none => st.last_internal_date_ms
        last_message_ids_at_latest_ts :=
          match (runOnce st own f p).latest_ts with
          | some _ => sortStrings (runOnce st own f p).latest_ids
          | none => st.last_message_ids_at_latest_ts
        runs := st.runs + 1 } := rfl

lemma loadPhase_loaded (fs : List FetchOutcome) :
    (loadPhase fs).loaded = fs.filterMap (fun f => (getMessageResult f).toOption) := by
  induction fs with
  | nil => rfl
  | cons f fs ih =>
    cases h : getMessageResult f with
    | ok m => simp [loadPhase, h, ih, Except.toOption]
    | error e => cases e <;> simp_all [loadPhase, Except.toOption]

lemma loadPhase_skipped (fs : List FetchOutcome) :
    (loadPhase fs).skipped_deleted = (fs.filter isNotFound).length := by
  induction fs with
  | nil => rfl
  | cons f fs ih =>
    cases h : getMessageResult f with
    | ok m => simp_all [loadPhase, isNotFound, List.filter_cons]
    | error e => cases e <;> simp_all [loadPhase, isNotFound, List.filter_cons]

lemma loadPhase_errors (fs : List FetchOutcome) :
    (loadPhase fs).errors = (fs.filter isFetchError).length := by
  induction fs with
  | nil => rfl
  | cons f fs ih =>
    cases h : getMessageResult f with
    | ok m => simp_all [loadPhase, isFetchError, List.filter_cons]
    | error e => cases e <;> simp_all [loadPhase, isFetchError, List.filter_cons]

lemma procStep_processed (procOk : NormalizedEmail → Bool) (acc : ProcAcc)
    (m : NormalizedEmail) :
    (procStep procOk acc m).processed
      = if procOk m then acc.processed + 1 else acc.processed := by
  by_cases h : procOk m
  · cases hl : acc.latest_ts
    · simp only [procStep, h, hl, if_true]
    · simp only [procStep, h, hl, if_true]
      split_ifs <;> rfl
  · simp [procStep, h]

lemma procStep_errors (procOk : NormalizedEmail → Bool) (acc : ProcAcc)
    (m : NormalizedEmail) :
    (procStep procOk acc m).errors
      = if procOk m then acc.errors else acc.errors + 1 := by
  by_cases h : procOk m
  · cases hl : acc.latest_ts
    · simp only [procStep, h, hl, if_true]
    · simp only [procStep, h, hl, if_true]
      split_ifs <;> rfl
  · simp [procStep, h]

lemma procStep_latest_none (procOk : NormalizedEmail → Bool) (acc : ProcAcc)
    (m : NormalizedEmail) :
    ((procStep procOk acc m).latest_ts = none) ↔ (procOk m = false ∧ acc.latest_ts = none) := by
  by_cases h : procOk m
  · cases hl : acc.latest_ts with
    | none => simp [procStep, h, hl]
    | some t =>
      simp only [procStep, h, hl, if_true]
      split_ifs <;> simp [hl, h]
  · simp [procStep, h]

lemma foldl_procStep_counts (procOk : NormalizedEmail → Bool) (l : List NormalizedEmail) :
    ∀ acc : ProcAcc,
      ((l.foldl (procStep procOk) acc).processed
        = acc.processed + (l.filter procOk).length) ∧
      ((l.foldl (procStep procOk) acc).errors
        = acc.errors + (l.filter (fun m => !procOk m)).length) := by
  induction l with
  | nil => intro acc; simp
  | cons m l ih =>
    intro acc
    have hp := procStep_processed procOk acc m
    have he := procStep_errors procOk acc m
    have ihs := ih (procStep procOk acc m)
    by_cases h : procOk m <;>
      simp only [List.foldl_cons, List.filter_cons, h, if_true, if_false, Bool.not_true,
        Bool.not_false, ite_true, ite_false] <;>
      constructor <;> simp [ihs.1, ihs.2, hp, he, h] <;> omega

lemma foldl_procStep_latest_none (procOk : NormalizedEmail → Bool)
    (l : List NormalizedEmail) :
    ∀ acc : ProcAcc,
      ((l.foldl (procStep procOk) acc).latest_ts = none)
        ↔ (l.filter procOk = [] ∧ acc.latest_ts = none) := by
  induction l with
  | nil => intro acc; simp
  | cons m l ih =>
    intro acc
    rw [List.foldl_cons, ih, procStep_latest_none]
    by_cases h : procOk m <;> simp [List.filter_cons, h, and_assoc]

/-- Claim C7: a candidate whose fetch raises the "not found" condition
(the provider's 404, translated to `KeyError` by `get_message`) is
counted in `skipped_deleted` — never in `errors` — and the remaining
candidates are still loaded and processed: the loaded batch is exactly
the successful fetches in order, `errors` counts only the other fetch
failures plus per-message processing failures, and the two counters are
reported as distinct fields of the run summary. -/
theorem missing_message_skip (st : AppState) (own : String)
    (fetches : List FetchOutcome) (procOk : NormalizedEmail → Bool) :
    (runOnce st own fetches procOk).skipped_deleted = (fetches.filter isNotFound).length ∧
    (loadPhase fetches).loaded = fetches.filterMap (fun f => (getMessageResult f).toOption) ∧
    (runOnce st own fetches procOk).errors =
      (fetches.filter isFetchError).length +
        ((runOnce st own fetches procOk).eligible.filter (fun m => !procOk m)).length ∧
    getMessageResult (FetchOutcome.http 404) = Except.error FetchErr.keyError ∧
    isNotFound (FetchOutcome.http 404) = true ∧
    isFetchError (FetchOutcome.http 404) = false := by
  refine ⟨?_, loadPhase_loaded fetches, ?_, rfl, rfl, rfl⟩
  · rw [runOnce_skipped, loadPhase_skipped]
  · rw [runOnce_errors, procPhase,
      (foldl_procStep_counts procOk ((runOnce st own fetches procOk).eligible) _).2,
      loadPhase_errors]

/-- Claim C2: the cursor's timestamp and id-set fields are overwritten
with the working pair only when at least one message was processed in the
run; a zero-processed run leaves both fields unchanged while the run
counter still increments; and `save_state` is called exactly once, at the
end of the run, with the final state. -/
theorem cursor_persistence (st : AppState) (own : String)
    (fetches : List FetchOutcome) (procOk : NormalizedEmail → Bool) :
    (runOnce st own fetches procOk).saves = [(runOnce st own fetches procOk).finalState] ∧
    (runOnce st own fetches procOk).finalState.runs = st.runs + 1 ∧
    ((runOnce st own fetches procOk).processed = 0 →
      (runOnce st own fetches procOk).finalState.last_internal_date_ms
          = st.last_internal_date_ms ∧
      (runOnce st own fetches procOk).finalState.last_message_ids_at_latest_ts
          = st.last_message_ids_at_latest_ts) ∧
    (0 < (runOnce st own fetches procOk).processed →
      (runOnce st own fetches procOk).finalState.last_internal_date_ms
          = (runOnce st own fetches procOk).latest_ts ∧
      (runOnce st own fetches procOk).finalState.last_message_ids_at_latest_ts
          = sortStrings (runOnce st own fetches procOk).latest_ids) := by
  have hcount := (foldl_procStep_counts procOk ((runOnce st own fetches procOk).eligible)
    (⟨0, (loadPhase fetches).errors, none, []⟩ : ProcAcc)).1
  have hnone := foldl_procStep_latest_none procOk ((runOnce st own fetches procOk).eligible)
    (⟨0, (loadPhase fetches).errors, none, []⟩ : ProcAcc)
  refine ⟨rfl, rfl, ?_, ?_⟩
  · intro h0
    rw [runOnce_processed, procPhase] at h0
    rw [hcount] at h0
    have hfil : ((runOnce st own fetches procOk).eligible).filter procOk = [] := by
      simpa [List.length_eq_zero] using h0
    have hlat : (runOnce st own fetches procOk).latest_ts = none := by
      rw [runOnce_latest_ts, procPhase, hnone]
      exact ⟨hfil, rfl⟩
    rw [runOnce_finalState, hlat]
    exact ⟨rfl, rfl⟩
  · intro h0
    rw [runOnce_processed, procPhase, hcount] at h0
    have hfil : ((runOnce st own fetches procOk).eligible).filter procOk ≠ [] := by
      intro hf
      rw [hf] at h0
      simp at h0
    have hlat : (runOnce st own fetches procOk).latest_ts ≠ none := by
      rw [runOnce_latest_ts, procPhase]
      intro hc
      rw [hnone] at hc
      exact hfil hc.1
    obtain ⟨t, ht⟩ := Option.ne_none_iff_exists'.mp hlat
    rw [runOnce_finalState, ht]
    exact ⟨rfl, rfl⟩

/-- Witness for C2: a run over an empty listing leaves the stored cursor
fields of `exState` unchanged, and a run that processes one message
overwrites the timestamp field with the working value. -/
theorem cursor_persistence_witness :
    (runOnce exState "me@x.com" [] (fun _ => true)).finalState.last_internal_date_ms
        = exState.last_internal_date_ms ∧
    (runOnce exState "me@x.com" [] (fun _ => true)).finalState.last_message_ids_at_latest_ts
        = exState.last_message_ids_at_latest_ts ∧
    (runOnce {} "me@x.com" [FetchOutcome.ok (mkMail "a" 50)]
        (fun _ => true)).finalState.last_internal_date_ms
      = (runOnce {} "me@x.com" [FetchOutcome.ok (mkMail "a" 50)] (fun _ => true)).latest_ts :=
  ⟨((cursor_persistence exState "me@x.com" [] (fun _ => true)).2.2.1 (by decide)).1,
   ((cursor_persistence exState "me@x.com" [] (fun _ => true)).2.2.1 (by decide)).2,
   ((cursor_persistence {} "me@x.com" [FetchOutcome.ok (mkMail "a" 50)]
      (fun _ => true)).2.2.2 (by decide)).1⟩

/-! ### Cursor-advancement over a sorted batch -/

lemma mailLE_ts_le {a b : NormalizedEmail} (h : mailLE a b) :
    a.internal_date_ms ≤ b.internal_date_ms := by
  rcases h with h | ⟨h, -⟩
  · exact le_of_lt h
  · exact le_of_eq h

lemma mem_insertId (ids : List String) (i x : String) :
    x ∈ insertId ids i ↔ x ∈ ids ∨ x = i := by
  unfold insertId
  split_ifs with h
  · constructor
    · exact Or.inl
    · rintro (hx | rfl)
      · exact hx
      · exact h
  · simp [List.mem_append]

lemma sorted_snoc {l : List NormalizedEmail} {a : NormalizedEmail}
    (h : List.Sorted mailLE (l ++ [a])) :
    List.Sorted mailLE l ∧ ∀ m ∈ l, mailLE m a := by
  have h' := List.pairwise_append.mp h
  exact ⟨h'.1, fun m hm => h'.2.2 m hm a (List.mem_singleton_self a)⟩

/-- Over a `(timestamp, id)`-sorted batch, the working-pair fold of the
processing loop computes exactly the maximum timestamp of the
successfully processed messages together with the ids processed at that
timestamp. -/
lemma procPhase_cursor_of_sorted (procOk : NormalizedEmail → Bool) (e0 : Nat)
    (l : List NormalizedEmail) :
    List.Sorted mailLE l →
      ((procPhase procOk e0 l).latest_ts = none ↔ l.filter procOk = []) ∧
      (∀ T, (procPhase procOk e0 l).latest_ts = some T →
        ((∀ m ∈ l.filter procOk, m.internal_date_ms ≤ T) ∧
         (∃ m ∈ l.filter procOk, m.internal_date_ms = T) ∧
         (∀ x, x ∈ (procPhase procOk e0 l).latest_ids ↔
            ∃ m ∈ l.filter procOk, m.internal_date_ms = T ∧ m.message_id = x))) := by
  induction l using List.reverseRecOn with
  | nil =>
    intro _
    constructor
    · simp [procPhase]
    · intro T hT
      simp [procPhase] at hT
  | append_singleton l a ih =>
    intro hs
    obtain ⟨hsl, hrel⟩ := sorted_snoc hs
    obtain ⟨ih1, ih2⟩ := ih hsl
    have hstep : procPhase procOk e0 (l ++ [a])
        = procStep procOk (procPhase procOk e0 l) a := by
      simp [procPhase, List.foldl_append]
    by_cases hp : procOk a
    case neg =>
      have hf : (l ++ [a]).filter procOk = l.filter procOk := by
        simp [List.filter_append, hp]
      have hlat : (procStep procOk (procPhase procOk e0 l) a).latest_ts
          = (procPhase procOk e0 l).latest_ts := by simp [procStep, hp]
      have hids : (procStep procOk (procPhase procOk e0 l) a).latest_ids
          = (procPhase procOk e0 l).latest_ids := by simp [procStep, hp]
      rw [hstep, hlat, hids, hf]
      exact ⟨ih1, ih2⟩
    case pos =>
      have hf : (l ++ [a]).filter procOk = l.filter procOk ++ [a] := by
        simp [List.filter_append, hp]
      rw [hstep, hf]
      cases hl : (procPhase procOk e0 l).latest_ts with
      | none =>
        have hfl : l.filter procOk = [] := ih1.mp hl
        have hlat : (procStep procOk (procPhase procOk e0 l) a).latest_ts
            = some a.internal_date_ms := by simp [procStep, hp, hl]
        have hids : (procStep procOk (procPhase procOk e0 l) a).latest_ids
            = [a.message_id] := by simp [procStep, hp, hl]
        rw [hlat, hids, hfl]
        constructor
        · simp
        · intro T hT
          have hT' := Option.some.inj hT
          subst hT'
          refine ⟨?_, ⟨a, by simp, rfl⟩, ?_⟩
          · intro m hm
            simp only [List.nil_append, List.mem_singleton] at hm
            subst hm
            exact le_refl _
          · intro x
            simp only [List.nil_append, List.mem_singleton]
            constructor
            · rintro rfl
              exact ⟨a, by simp, rfl, rfl⟩
            · rintro ⟨m, rfl, hts, hid⟩
              exact hid.symm
      | some t =>
        obtain ⟨hbound, hex, hids_iff⟩ := ih2 t hl
        obtain ⟨m0, hm0, hts0⟩ := hex
        have hta : t ≤ a.internal_date_ms := by
          have h1 := mailLE_ts_le (hrel m0 (List.mem_of_mem_filter hm0))
          omega
        by_cases h1 : t < a.internal_date_ms
        · have hlat : (procStep procOk (procPhase procOk e0 l) a).latest_ts
              = some a.internal_date_ms := by simp [procStep, hp, hl, h1]
          have hids : (procStep procOk (procPhase procOk e0 l) a).latest_ids
              = [a.message_id] := by simp [procStep, hp, hl, h1]
          rw [hlat, hids]
          constructor
          · simp
          · intro T hT
            have hT' := Option.some.inj hT
            subst hT'
            refine ⟨?_, ⟨a, by simp, rfl⟩, ?_⟩
            · intro m hm
              rcases List.mem_append.mp hm with hm | hm
              · have := hbound m hm
                omega
              · simp only [List.mem_singleton] at hm
                subst hm
                exact le_refl _
            · intro x
              simp only [List.mem_singleton]
              constructor
              · rintro rfl
                exact ⟨a, List.mem_append.mpr (Or.inr (by simp)), rfl, rfl⟩
              · rintro ⟨m, hm, hts, hid⟩
                rcases List.mem_append.mp hm with hm | hm
                · have := hbound m hm
                  omega
                · simp only [List.mem_singleton] at hm
                  subst hm
                  exact hid.symm
        · have h2 : a.internal_date_ms = t := by omega
          have hlat : (procStep procOk (procPhase procOk e0 l) a).latest_ts
              = some t := by simp [procStep, hp, hl, h1, h2]
          have hids : (procStep procOk (procPhase procOk e0 l) a).latest_ids
              = insertId (procPhase procOk e0 l).latest_ids a.message_id := by
            simp [procStep, hp, hl, h1, h2]
          rw [hlat, hids]
          constructor
          · simp
          · intro T hT
            have hT' := Option.some.inj hT
            subst hT'
            refine ⟨?_, ⟨m0, List.mem_append.mpr (Or.inl hm0), hts0⟩, ?_⟩
            · intro m hm
              rcases List.mem_append.mp hm with hm | hm
              · exact hbound m hm
              · simp only [List.mem_singleton] at hm
                subst hm
                omega
            · intro x
              rw [mem_insertId, hids_iff x]
              constructor
              · rintro (⟨m, hm, hts, hid⟩ | rfl)
                · exact ⟨m, List.mem_append.mpr (Or.inl hm), hts, hid⟩
                · exact ⟨a, List.mem_append.mpr (Or.inr (by simp)), h2, rfl⟩
              · rintro ⟨m, hm, hts, hid⟩
                rcases List.mem_append.mp hm with hm | hm
                · exact Or.inl ⟨m, hm, hts, hid⟩
                · simp only [List.mem_singleton] at hm
                  subst hm
                  exact Or.inr hid.symm

lemma eligible_sorted (st : AppState) (own : String) (f : List FetchOutcome)
    (p : NormalizedEmail → Bool) :
    List.Sorted mailLE (runOnce st own f p).eligible := by
  rw [runOnce_eligible]
  exact (List.sorted_insertionSort mailLE (loadPhase f).loaded).filter (isEligible st own)

/-- Claim C3: the orchestrator loads all candidates, sorts the batch by
`(timestamp, id)` ascending and filters it, so the processing order (the
eligible list) is sorted; after the run the working cursor timestamp is
the maximum timestamp among successfully processed messages and the
working id set holds exactly the ids processed at that timestamp; on
candidates listed with timestamps [50, 10, 30] the processing order is
10, 30, 50 and the persisted cursor timestamp is 50. -/
theorem chronological_processing (st : AppState) (own : String)
    (fetches : List FetchOutcome) (procOk : NormalizedEmail → Bool) :
    List.Sorted mailLE (runOnce st own fetches procOk).eligible ∧
    (runOnce st own fetches procOk).eligible
      = (sortMails (loadPhase fetches).loaded).filter (isEligible st own) ∧
    ((runOnce st own fetches procOk).latest_ts = none ↔
      (runOnce st own fetches procOk).eligible.filter procOk = []) ∧
    (∀ T, (runOnce st own fetches procOk).latest_ts = some T →
      ((∀ m ∈ (runOnce st own fetches procOk).eligible.filter procOk,
          m.internal_date_ms ≤ T) ∧
       (∃ m ∈ (runOnce st own fetches procOk).eligible.filter procOk,
          m.internal_date_ms = T) ∧
       (∀ x, x ∈ (runOnce st own fetches procOk).latest_ids ↔
          ∃ m ∈ (runOnce st own fetches procOk).eligible.filter procOk,
            m.internal_date_ms = T ∧ m.message_id = x))) ∧
    ((runOnce {} "me@x.com" exFetches (fun _ => true)).eligible.map
        (fun m => m.internal_date_ms) = [10, 30, 50] ∧
     (runOnce {} "me@x.com" exFetches (fun _ => true)).finalState.last_internal_date_ms
        = some 50) := by
  have hsorted := eligible_sorted st own fetches procOk
  have hmain := procPhase_cursor_of_sorted procOk (loadPhase fetches).errors
    ((runOnce st own fetches procOk).eligible) hsorted
  refine ⟨hsorted, rfl, ?_, ?_, by decide, by decide⟩
  · rw [runOnce_latest_ts]
    exact hmain.1
  · intro T hT
    rw [runOnce_latest_ts] at hT
    have h := hmain.2 T hT
    rw [runOnce_latest_ids]
    exact h

/-- Witness for C3: at the [50, 10, 30] example run, the cursor bound and
the id-set characterization hold at the concrete processed messages. -/
theorem chronological_processing_witness :
    (mkMail "b" 10).internal_date_ms ≤ 50 ∧
    "a" ∈ (runOnce {} "me@x.com" exFetches (fun _ => true)).latest_ids :=
  ⟨((chronological_processing {} "me@x.com" exFetches (fun _ => true)).2.2.2.1
      50 (by decide)).1 (mkMail "b" 10) (by decide),
   (((chronological_processing {} "me@x.com" exFetches (fun _ => true)).2.2.2.1
      50 (by decide)).2.2 "a").mpr ⟨mkMail "a" 50, by decide, rfl, rfl⟩⟩

/-- Claim C1: a loaded message is eligible unless (a) its timestamp is
below the cursor timestamp, (b) its timestamp equals the cursor timestamp
and its id is in the cursor's id set, (c) its label set contains a DRAFT
marker, or (d) its normalized sender equals the account's own (nonempty)
authenticated address; in particular, with cursor timestamp `T` and
otherwise unexceptional messages at `T`, eligibility is exactly "id not
in the cursor's id set". -/
theorem eligibility_filter_characterization :
    (∀ (st : AppState) (own : String) (mail : NormalizedEmail), own ≠ "" →
      (isEligible st own mail = true ↔
        ¬((∃ t, st.last_internal_date_ms = some t ∧ mail.internal_date_ms < t) ∨
          (∃ t, st.last_internal_date_ms = some t ∧ mail.internal_date_ms = t ∧
            mail.message_id ∈ st.last_message_ids_at_latest_ts) ∨
          (∃ lbl ∈ mail.label_ids, pyToUpper lbl = "DRAFT") ∨
          normalizedAddress mail.from_email = own))) ∧
    (∀ (T : Int) (ids : List String) (own : String) (mail : NormalizedEmail), own ≠ "" →
      mail.internal_date_ms = T → hasDraftLabel mail = false →
      normalizedAddress mail.from_email ≠ own →
      (isEligible { last_internal_date_ms := some T, last_message_ids_at_latest_ts := ids }
          own mail = true ↔ mail.message_id ∉ ids)) := by
  constructor
  · intro st own mail h
    cases hl : st.last_internal_date_ms with
    | none => simp [isEligible, hl, hasDraftLabel, List.any_eq_true, h]
    | some t =>
      simp [isEligible, hl, hasDraftLabel, List.any_eq_true, h, not_or]
      tauto
  · intro T ids own mail h hT hd hn
    simp [isEligible, hT, hd, hn, h]

/-- Witness for C1: with cursor timestamp 5 and id set ["a"], the message
with id "b" at timestamp 5 is eligible and the one with id "a" is not. -/
theorem eligibility_filter_characterization_witness :
    isEligible { last_internal_date_ms := some 5, last_message_ids_at_latest_ts := ["a"] }
        "me@x.com" (mkMail "b" 5) = true ∧
    isEligible { last_internal_date_ms := some 5, last_message_ids_at_latest_ts := ["a"] }
        "me@x.com" (mkMail "a" 5) = false :=
  ⟨(eligibility_filter_characterization.2 5 ["a"] "me@x.com" (mkMail "b" 5)
      (by decide) rfl (by decide) (by decide)).mpr (by decide),
   Bool.eq_false_iff.mpr (fun htrue =>
     (by decide : ¬ ((mkMail "a" 5).message_id ∉ ["a"]))
       ((eligibility_filter_characterization.2 5 ["a"] "me@x.com" (mkMail "a" 5)
         (by decide) rfl (by decide) (by decide)).mp htrue))⟩

end InboxCopilot
